import Mathlib

/-!
Shallow embedding of the costing engine of the GastroChef recipe editor
(src/src/pages/RecipeEditor.tsx). Numbers are modelled as rationals; a
JavaScript value whose numeric coercion is not a finite number (NaN,
Infinity, undefined, a non-numeric string) is modelled as `none : Option ℚ`,
and a nullable string field as `Option String`. The ingredient lookup map
built from the ingredients list is modelled as a function
`String → Option Ingredient`.
-/

namespace GastroChef

/-- Embeds `toNum(x, fallback)`: `Number(x)` if finite, else the fallback.
`none` stands for any input whose coercion is not a finite number. -/
def toNum (x : Option ℚ) (fallback : ℚ) : ℚ :=
  x.getD fallback

/-- JavaScript `String.prototype.trim`: drop leading and trailing
whitespace characters. -/
def jsTrim (s : String) : String :=
  String.mk (((s.data.dropWhile Char.isWhitespace).reverse.dropWhile
    Char.isWhitespace).reverse)

/-- JavaScript `String.prototype.toLowerCase` (ASCII case mapping). -/
def jsToLower (s : String) : String :=
  String.mk (s.data.map Char.toLower)

/-- Embeds `safeUnit(u)`: trim, lower-case, and default the empty string
to "g" (JavaScript `|| 'g'` on a string replaces only the empty string). -/
def safeUnit (u : String) : String :=
  let s := jsToLower (jsTrim u)
  if s = "" then "g" else s

/-- Embeds `convertQtyToPackUnit(qty, lineUnit, packUnit)`: the four
explicit linear rules; every other pair passes the quantity through. -/
def convertQtyToPackUnit (qty : ℚ) (lineUnit packUnit : String) : ℚ :=
  let u := safeUnit lineUnit
  let p := safeUnit packUnit
  if u = "g" ∧ p = "kg" then qty / 1000
  else if u = "kg" ∧ p = "g" then qty * 1000
  else if u = "ml" ∧ p = "l" then qty / 1000
  else if u = "l" ∧ p = "ml" then qty * 1000
  else qty

/-- The `line_type` discriminator of a recipe line. -/
inductive LineType where
  | ingredient
  | group
deriving DecidableEq

/-- A `recipe_lines` row as selected by the editor. -/
structure Line where
  id : String
  recipe_id : String
  ingredient_id : Option String
  sub_recipe_id : Option String
  qty : Option ℚ
  unit : String
  note : Option String
  sort_order : ℚ
  line_type : LineType
  group_title : Option String

/-- An `ingredients` row as selected by the editor. -/
structure Ingredient where
  id : String
  name : Option String
  pack_unit : Option String
  net_unit_cost : Option ℚ
  is_active : Option Bool

/-- The contribution of one line to the editor's `totalCost` sum: group
lines and lines whose `ingredient_id` is null or empty (JavaScript falsy)
are skipped, a missing lookup target costs 0 via `toNum(…, 0)`. -/
def lineCost (m : String → Option Ingredient) (l : Line) : ℚ :=
  if l.line_type ≠ LineType.ingredient then 0
  else match l.ingredient_id with
    | none => 0
    | some iid =>
      if iid = "" then 0
      else
        convertQtyToPackUnit (toNum l.qty 0) l.unit
            (safeUnit ((Option.bind (m iid) Ingredient.pack_unit).getD "g")) *
          toNum (Option.bind (m iid) Ingredient.net_unit_cost) 0

/-- One iteration of the `for … of lines` loop inside `totalCost`. -/
def costStep (m : String → Option Ingredient) (sum : ℚ) (l : Line) : ℚ :=
  if l.line_type ≠ LineType.ingredient then sum
  else match l.ingredient_id with
    | none => sum
    | some iid =>
      if iid = "" then sum
      else
        sum +
          convertQtyToPackUnit (toNum l.qty 0) l.unit
              (safeUnit ((Option.bind (m iid) Ingredient.pack_unit).getD "g")) *
            toNum (Option.bind (m iid) Ingredient.net_unit_cost) 0

/-- Embeds the editor's `totalCost` memo: fold the loop body over the
lines starting from 0. -/
def totalCost (lines : List Line) (m : String → Option Ingredient) : ℚ :=
  lines.foldl (costStep m) 0

/-- Embeds `const portionsN = Math.max(1, toNum(portions, 1))`. -/
def portionsN (portions : Option ℚ) : ℚ :=
  max 1 (toNum portions 1)

/-- Embeds `const cpp = totalCost / portionsN` (cost per portion). -/
def cpp (tc : ℚ) (portions : Option ℚ) : ℚ :=
  tc / portionsN portions

/-- Embeds `const sell = Math.max(0, toNum(sellingPrice, 0))`. -/
def sell (sellingPrice : Option ℚ) : ℚ :=
  max 0 (toNum sellingPrice 0)

/-- Embeds `const fcPct = sell > 0 ? (cpp / sell) * 100 : null`. -/
def fcPct (c : ℚ) (sellingPrice : Option ℚ) : Option ℚ :=
  if sell sellingPrice > 0 then some (c / sell sellingPrice * 100) else none

/-- Embeds `const margin = sell - cpp`. -/
def margin (c : ℚ) (sellingPrice : Option ℚ) : ℚ :=
  sell sellingPrice - c

/-- Embeds `const marginPct = sell > 0 ? (margin / sell) * 100 : null`. -/
def marginPct (c : ℚ) (sellingPrice : Option ℚ) : Option ℚ :=
  if sell sellingPrice > 0 then some (margin c sellingPrice / sell sellingPrice * 100)
  else none

/-- Embeds `const target = Math.min(99, Math.max(1, toNum(targetFC, 30)))`. -/
def target (targetFC : Option ℚ) : ℚ :=
  min 99 (max 1 (toNum targetFC 30))

/-- Embeds `const suggestedPrice = target > 0 ? cpp / (target / 100) : 0`. -/
def suggestedPrice (c : ℚ) (targetFC : Option ℚ) : ℚ :=
  if target targetFC > 0 then c / (target targetFC / 100) else 0

/-- Conversion families of the spec's unit table. -/
inductive Family where
  | mass
  | volume
  | count
  | portion
  | other
deriving DecidableEq

/-- The spec's table of recognized canonical units and their families. -/
def familyOf (u : String) : Family :=
  if u = "g" ∨ u = "kg" then Family.mass
  else if u = "ml" ∨ u = "l" then Family.volume
  else if u = "pcs" then Family.count
  else if u = "portion" then Family.portion
  else Family.other

/-- The spec's recognized canonical units. -/
def recognizedUnits : List String :=
  ["g", "kg", "ml", "l", "pcs", "portion"]

/-- The four canonical-unit pairs for which the code has an explicit
linear conversion rule. -/
def rulePair (u p : String) : Prop :=
  (u = "g" ∧ p = "kg") ∨ (u = "kg" ∧ p = "g") ∨
    (u = "ml" ∧ p = "l") ∨ (u = "l" ∧ p = "ml")

instance (u p : String) : Decidable (rulePair u p) := by
  unfold rulePair; infer_instance

-- Helper lemmas -------------------------------------------------------

lemma costStep_eq (m : String → Option Ingredient) (s : ℚ) (l : Line) :
    costStep m s l = s + lineCost m l := by
  by_cases h : l.line_type ≠ LineType.ingredient
  · simp [costStep, lineCost, h]
  · cases hid : l.ingredient_id with
    | none => simp [costStep, lineCost, h, hid]
    | some iid =>
      by_cases he : iid = "" <;> simp [costStep, lineCost, h, hid, he]

lemma foldl_costStep (m : String → Option Ingredient) (lines : List Line) :
    ∀ a : ℚ, lines.foldl (costStep m) a = a + (lines.map (lineCost m)).sum := by
  induction lines with
  | nil => intro a; simp
  | cons l ls ih =>
    intro a
    simp only [List.foldl_cons, List.map_cons, List.sum_cons, costStep_eq, ih]
    ring

lemma totalCost_eq_sum (lines : List Line) (m : String → Option Ingredient) :
    totalCost lines m = (lines.map (lineCost m)).sum := by
  simp [totalCost, foldl_costStep]

lemma lineCost_of_not_ingredient (m : String → Option Ingredient) (l : Line)
    (h : l.line_type ≠ LineType.ingredient) : lineCost m l = 0 := by
  simp [lineCost, h]

lemma convert_of_not_rulePair (x : ℚ) (fu tu : String)
    (h : ¬ rulePair (safeUnit fu) (safeUnit tu)) :
    convertQtyToPackUnit x fu tu = x := by
  simp only [convertQtyToPackUnit]
  split_ifs with h1 h2 h3 h4
  · exact absurd (Or.inl h1) h
  · exact absurd (Or.inr (Or.inl h2)) h
  · exact absurd (Or.inr (Or.inr (Or.inl h3))) h
  · exact absurd (Or.inr (Or.inr (Or.inr h4))) h
  · rfl

lemma rulePair_facts (u p : String) (h : rulePair u p) :
    u ≠ p ∧ familyOf u = familyOf p := by
  rcases h with ⟨h1, h2⟩ | ⟨h1, h2⟩ | ⟨h1, h2⟩ | ⟨h1, h2⟩ <;>
    subst h1 <;> subst h2 <;> exact ⟨by decide, by decide⟩

lemma convert_nonneg (q : ℚ) (u p : String) (hq : 0 ≤ q) :
    0 ≤ convertQtyToPackUnit q u p := by
  simp only [convertQtyToPackUnit]
  split_ifs <;> positivity

-- scratch tests
example : safeUnit "cup" = "cup" := by decide
example : safeUnit "  KG " = "kg" := by decide
example : safeUnit "" = "g" := by decide
example : convertQtyToPackUnit 5 "pcs" "kg" = 5 := by
  apply convert_of_not_rulePair
  decide

-- Claim theorems ------------------------------------------------------

/-- C1: convertQtyToPackUnit multiplies by 1000 when converting kg to g
and l to ml, divides by 1000 when converting g to kg and ml to l, and
returns the quantity unchanged for every other pair: equal canonical
units, units of different families, and any same-family pair with no
explicit rule. -/
theorem convert_rules_and_passthrough (x : ℚ) (fu tu : String) :
    (safeUnit fu = "kg" ∧ safeUnit tu = "g" →
      convertQtyToPackUnit x fu tu = x * 1000)
    ∧ (safeUnit fu = "l" ∧ safeUnit tu = "ml" →
      convertQtyToPackUnit x fu tu = x * 1000)
    ∧ (safeUnit fu = "g" ∧ safeUnit tu = "kg" →
      convertQtyToPackUnit x fu tu = x / 1000)
    ∧ (safeUnit fu = "ml" ∧ safeUnit tu = "l" →
      convertQtyToPackUnit x fu tu = x / 1000)
    ∧ (safeUnit fu = safeUnit tu → convertQtyToPackUnit x fu tu = x)
    ∧ (familyOf (safeUnit fu) ≠ familyOf (safeUnit tu) →
      convertQtyToPackUnit x fu tu = x)
    ∧ (familyOf (safeUnit fu) = familyOf (safeUnit tu) ∧
        ¬ rulePair (safeUnit fu) (safeUnit tu) →
      convertQtyToPackUnit x fu tu = x) := by
  refine ⟨?_, ?_, ?_, ?_, ?_, ?_, ?_⟩
  · rintro ⟨h1, h2⟩; simp [convertQtyToPackUnit, h1, h2]
  · rintro ⟨h1, h2⟩; simp [convertQtyToPackUnit, h1, h2]
  · rintro ⟨h1, h2⟩; simp [convertQtyToPackUnit, h1, h2]
  · rintro ⟨h1, h2⟩; simp [convertQtyToPackUnit, h1, h2]
  · intro h
    apply convert_of_not_rulePair
    intro hr
    exact (rulePair_facts _ _ hr).1 h
  · intro h
    apply convert_of_not_rulePair
    intro hr
    exact h (rulePair_facts _ _ hr).2
  · rintro ⟨-, hnr⟩
    exact convert_of_not_rulePair x fu tu hnr

/-- Witness for C1 at concrete inputs: kg to g scales by 1000 and the
cross-family pair pcs to kg passes through. -/
theorem convert_rules_and_passthrough_witness :
    convertQtyToPackUnit 2 "kg" "g" = 2 * 1000 ∧
      convertQtyToPackUnit 5 "pcs" "kg" = 5 :=
  ⟨(convert_rules_and_passthrough 2 "kg" "g").1 ⟨by decide, by decide⟩,
   (convert_rules_and_passthrough 5 "pcs" "kg").2.2.2.2.2.1 (by decide)⟩

/-- C7 counterexample: "cup" is not one of the recognized canonical
units, yet safeUnit returns it unchanged instead of the default "g". -/
theorem safeUnit_unrecognized_counterexample :
    "cup" ∉ recognizedUnits ∧ safeUnit "cup" = "cup" ∧ safeUnit "cup" ≠ "g" :=
  ⟨by decide, by decide, by decide⟩

/-- C7 (amended): safeUnit trims and lower-cases its input; an input
whose trimmed lower-cased form is empty yields the default "g"; every
other input, recognized or not, is returned as its trimmed lower-cased
form; "g" results exactly from inputs that trim-lower to "" or "g". -/
theorem safeUnit_amended (u : String) :
    (jsToLower (jsTrim u) = "" → safeUnit u = "g")
    ∧ (jsToLower (jsTrim u) ≠ "" → safeUnit u = jsToLower (jsTrim u))
    ∧ (safeUnit u = "g" ↔
        jsToLower (jsTrim u) = "" ∨ jsToLower (jsTrim u) = "g") := by
  refine ⟨fun h => by simp [safeUnit, h], fun h => by simp [safeUnit, h], ?_⟩
  simp only [safeUnit]
  split_ifs with h
  · simp [h]
  · simp [h]

/-- Witness for C7 (amended) at the concrete input "  KG ". -/
theorem safeUnit_amended_witness :
    jsToLower (jsTrim "  KG ") ≠ "" ∧
      safeUnit "  KG " = jsToLower (jsTrim "  KG ") :=
  ⟨by decide, (safeUnit_amended "  KG ").2.1 (by decide)⟩

/-- C8: converting a non-negative quantity from kg to g and back from g
to kg yields exactly the original quantity. -/
theorem convert_kg_g_roundtrip (x : ℚ) (hx : 0 ≤ x) :
    convertQtyToPackUnit (convertQtyToPackUnit x "kg" "g") "g" "kg" = x := by
  have hkg : safeUnit "kg" = "kg" := by decide
  have hg : safeUnit "g" = "g" := by decide
  simp [convertQtyToPackUnit, hkg, hg]

/-- Witness for C8 at x = 3. -/
theorem convert_kg_g_roundtrip_witness :
    convertQtyToPackUnit (convertQtyToPackUnit 3 "kg" "g") "g" "kg" = 3 :=
  convert_kg_g_roundtrip 3 (by norm_num)

/-- C3: cost per portion divides by max(1, coerce(portions, 1)); when
portions is non-positive or non-numeric the divisor is 1, and the
divisor is never 0, so division by zero cannot occur. -/
theorem cpp_divisor_safe (tc : ℚ) (p : Option ℚ) :
    cpp tc p = tc / max 1 (toNum p 1)
    ∧ (toNum p 1 ≤ 0 → portionsN p = 1)
    ∧ (p = none → portionsN p = 1)
    ∧ portionsN p ≠ 0 := by
  refine ⟨rfl, fun h => ?_, fun h => ?_, ?_⟩
  · exact max_eq_left (h.trans zero_le_one)
  · subst h; simp [portionsN, toNum]
  · have h1 : (0 : ℚ) < portionsN p :=
      lt_of_lt_of_le one_pos (le_max_left _ _)
    exact h1.ne'

/-- Witness for C3 at portions = -2: the divisor is 1. -/
theorem cpp_divisor_safe_witness :
    toNum (some (-2 : ℚ)) 1 ≤ 0 ∧ portionsN (some (-2 : ℚ)) = 1 :=
  ⟨by norm_num [toNum],
   (cpp_divisor_safe 10 (some (-2 : ℚ))).2.1 (by norm_num [toNum])⟩

/-- C5: fcPct and marginPct are null exactly when the selling price is
non-positive (or non-numeric, which coerces to 0); for a positive
selling price they are (cpp / sell) * 100 and (margin / sell) * 100. -/
theorem fcPct_marginPct_null_iff (c : ℚ) (sp : Option ℚ) :
    (fcPct c sp = none ↔ toNum sp 0 ≤ 0)
    ∧ (marginPct c sp = none ↔ toNum sp 0 ≤ 0)
    ∧ (0 < toNum sp 0 →
        fcPct c sp = some (c / toNum sp 0 * 100)
        ∧ marginPct c sp = some (margin c sp / toNum sp 0 * 100)) := by
  have hpos : (0 < sell sp) ↔ 0 < toNum sp 0 := by
    simp [sell, lt_max_iff]
  refine ⟨?_, ?_, fun h => ?_⟩
  · simp only [fcPct]
    split_ifs with h
    · simp [(hpos.mp h).not_le]
    · simp [not_lt.mp fun hc => h (hpos.mpr hc)]
  · simp only [marginPct]
    split_ifs with h
    · simp [(hpos.mp h).not_le]
    · simp [not_lt.mp fun hc => h (hpos.mpr hc)]
  · have hsp : 0 < sell sp := hpos.mpr h
    have hEq : sell sp = toNum sp 0 := by simp [sell, max_eq_right h.le]
    exact ⟨by simp [fcPct, hsp, hEq, h], by simp [marginPct, hsp, hEq, h]⟩

/-- Witness for C5 at sellingPrice = 5 and cost per portion 2:
fcPct is 40. -/
theorem fcPct_marginPct_null_iff_witness :
    (0 : ℚ) < toNum (some (5 : ℚ)) 0 ∧
      fcPct 2 (some (5 : ℚ)) = some (2 / toNum (some (5 : ℚ)) 0 * 100) :=
  ⟨by norm_num [toNum],
   ((fcPct_marginPct_null_iff 2 (some (5 : ℚ))).2.2 (by norm_num [toNum])).1⟩

/-- C6: suggestedPrice equals cpp divided by (target clamped to [1, 99])
divided by 100; the clamped target lies in [1, 99], its hundredth is
never 0, and the result is positive whenever the cost per portion is. -/
theorem suggestedPrice_safe (c : ℚ) (t : Option ℚ) :
    suggestedPrice c t = c / (min 99 (max 1 (toNum t 30)) / 100)
    ∧ 1 ≤ target t ∧ target t ≤ 99
    ∧ target t / 100 ≠ 0
    ∧ (0 < c → 0 < suggestedPrice c t) := by
  have h1 : (1 : ℚ) ≤ target t := le_min (by norm_num) (le_max_left _ _)
  have h99 : target t ≤ 99 := min_le_left _ _
  have hpos : (0 : ℚ) < target t := lt_of_lt_of_le one_pos h1
  have hform : suggestedPrice c t = c / (target t / 100) := by
    simp [suggestedPrice, hpos]
  refine ⟨?_, h1, h99, (div_pos hpos (by norm_num)).ne', fun hc => ?_⟩
  · rw [hform]; rfl
  · rw [hform]
    exact div_pos hc (div_pos hpos (by norm_num))

/-- Witness for C6 at cost per portion 2 and target 25. -/
theorem suggestedPrice_safe_witness :
    (0 : ℚ) < 2 ∧ 0 < suggestedPrice 2 (some (25 : ℚ)) ∧
      suggestedPrice 2 (some (25 : ℚ)) =
        2 / (min 99 (max 1 (toNum (some (25 : ℚ)) 30)) / 100) :=
  ⟨by norm_num,
   (suggestedPrice_safe 2 (some (25 : ℚ))).2.2.2.2 (by norm_num),
   (suggestedPrice_safe 2 (some (25 : ℚ))).1⟩

/-- C10: a negative or non-numeric selling price behaves as 0: the
effective price sell is 0, fcPct and marginPct are null, and margin is
exactly the negated cost per portion. -/
theorem sell_negative_as_zero (c : ℚ) (sp : Option ℚ)
    (h : sp = none ∨ toNum sp 0 < 0) :
    sell sp = 0 ∧ fcPct c sp = none ∧ marginPct c sp = none ∧
      margin c sp = -c := by
  have h0 : sell sp = 0 := by
    rcases h with h | h
    · subst h; simp [sell, toNum]
    · simp [sell, max_eq_left h.le]
  refine ⟨h0, ?_, ?_, ?_⟩
  · simp [fcPct, h0]
  · simp [marginPct, h0]
  · simp [margin, h0]

/-- Witness for C10 at sellingPrice = -3 and cost per portion 2. -/
theorem sell_negative_as_zero_witness :
    toNum (some (-3 : ℚ)) 0 < 0 ∧ margin 2 (some (-3 : ℚ)) = -2 :=
  ⟨by norm_num [toNum],
   (sell_negative_as_zero 2 (some (-3 : ℚ))
     (Or.inr (by norm_num [toNum]))).2.2.2⟩

/-- An ingredient sample used by concrete witnesses. -/
def sampleIngredient : Ingredient :=
  ⟨"i1", some "Flour", some "kg", some 4, some true⟩

/-- A lookup map holding only the sample ingredient. -/
def sampleLookup : String → Option Ingredient :=
  fun s => if s = "i1" then some sampleIngredient else none

/-- An ingredient line sample: 500 g of the sample ingredient. -/
def sampleIngLine : Line :=
  ⟨"l1", "r1", some "i1", none, some 500, "g", none, 10,
    LineType.ingredient, none⟩

/-- A group line sample carrying stray qty and unit fields. -/
def sampleGroupLine : Line :=
  ⟨"l2", "r1", none, none, some 7, "kg", none, 20,
    LineType.group, some "Sauce"⟩

/-- An ingredient line sample referencing an id absent from the lookup. -/
def ghostLine : Line :=
  ⟨"l3", "r1", some "ghost", none, some 5, "g", none, 30,
    LineType.ingredient, none⟩

/-- C2: totalCost is the sum of lineCost over the lines whose line_type
is ingredient only, and a group line contributes exactly 0 wherever it
sits in the list, regardless of stray qty and unit fields. -/
theorem totalCost_groups_zero (lines : List Line)
    (m : String → Option Ingredient) :
    totalCost lines m =
      ((lines.filter fun l => l.line_type = LineType.ingredient).map
        (lineCost m)).sum
    ∧ ∀ l : Line, l.line_type = LineType.group →
        ∀ pre post : List Line,
          totalCost (pre ++ l :: post) m = totalCost (pre ++ post) m := by
  constructor
  · rw [totalCost_eq_sum]
    induction lines with
    | nil => simp
    | cons a as ih =>
      by_cases h : a.line_type = LineType.ingredient
      · simp [List.filter_cons, h, ih]
      · simp [List.filter_cons, h, ih, lineCost_of_not_ingredient m a h]
  · intro l hl pre post
    rw [totalCost_eq_sum, totalCost_eq_sum]
    have h0 : lineCost m l = 0 :=
      lineCost_of_not_ingredient m l (by rw [hl]; decide)
    simp [List.map_append, List.sum_append, h0]

/-- Witness for C2: a concrete group line with stray qty 7 kg adds
nothing to totalCost. -/
theorem totalCost_groups_zero_witness :
    totalCost ([] ++ sampleGroupLine :: [sampleIngLine]) sampleLookup =
      totalCost ([] ++ [sampleIngLine]) sampleLookup :=
  (totalCost_groups_zero [sampleGroupLine] sampleLookup).2
    sampleGroupLine rfl [] [sampleIngLine]

/-- C4: an ingredient line whose ingredient_id is absent or resolves to
no ingredient in the lookup costs exactly 0 and adds nothing to
totalCost; no error is raised (lineCost and totalCost are total). -/
theorem missing_ingredient_zero (l : Line) (m : String → Option Ingredient)
    (hty : l.line_type = LineType.ingredient)
    (h : l.ingredient_id = none ∨
      ∃ iid, l.ingredient_id = some iid ∧ m iid = none) :
    lineCost m l = 0
    ∧ ∀ pre post : List Line,
        totalCost (pre ++ l :: post) m = totalCost (pre ++ post) m := by
  have hc : lineCost m l = 0 := by
    rcases h with h | ⟨iid, hid, hm⟩
    · simp [lineCost, hty, h]
    · by_cases he : iid = ""
      · simp [lineCost, hty, hid, he]
      · simp [lineCost, hty, hid, he, hm, toNum]
  refine ⟨hc, fun pre post => ?_⟩
  rw [totalCost_eq_sum, totalCost_eq_sum]
  simp [List.map_append, List.sum_append, hc]

/-- Witness for C4: a line referencing the id "ghost" against an empty
lookup costs 0. -/
theorem missing_ingredient_zero_witness :
    lineCost (fun _ => none) ghostLine = 0 :=
  (missing_ingredient_zero ghostLine (fun _ => none) rfl
    (Or.inr ⟨"ghost", rfl, rfl⟩)).1

/-- C9: when every ingredient line's qty coerces to a non-negative
number and every referenced ingredient's net_unit_cost coerces to a
non-negative number, totalCost and the cost per portion are
non-negative; conversion rescales by positive factors only, so it
preserves non-negativity. -/
theorem totalCost_nonneg (lines : List Line) (m : String → Option Ingredient)
    (portions : Option ℚ)
    (hq : ∀ l ∈ lines, l.line_type = LineType.ingredient →
      0 ≤ toNum l.qty 0)
    (hc : ∀ l ∈ lines, ∀ iid, l.ingredient_id = some iid →
      ∀ ing, m iid = some ing → 0 ≤ toNum ing.net_unit_cost 0) :
    (∀ (q : ℚ) (u p : String), 0 ≤ q → 0 ≤ convertQtyToPackUnit q u p)
    ∧ 0 ≤ totalCost lines m
    ∧ 0 ≤ cpp (totalCost lines m) portions := by
  have hline : ∀ l ∈ lines, 0 ≤ lineCost m l := by
    intro l hl
    by_cases hty : l.line_type = LineType.ingredient
    · cases hid : l.ingredient_id with
      | none => simp [lineCost, hty, hid]
      | some iid =>
        by_cases he : iid = ""
        · simp [lineCost, hty, hid, he]
        · have hqty : 0 ≤ toNum l.qty 0 := hq l hl hty
          have hconv := convert_nonneg (toNum l.qty 0) l.unit
            (safeUnit ((Option.bind (m iid) Ingredient.pack_unit).getD "g"))
            hqty
          have hnet : 0 ≤ toNum (Option.bind (m iid)
              Ingredient.net_unit_cost) 0 := by
            cases hmi : m iid with
            | none => simp [toNum]
            | some ing => simpa [toNum] using hc l hl iid hid ing hmi
          have hform : lineCost m l =
              convertQtyToPackUnit (toNum l.qty 0) l.unit
                  (safeUnit ((Option.bind (m iid)
                    Ingredient.pack_unit).getD "g")) *
                toNum (Option.bind (m iid) Ingredient.net_unit_cost) 0 := by
            simp [lineCost, hty, hid, he]
          rw [hform]
          exact mul_nonneg hconv hnet
    · exact le_of_eq (lineCost_of_not_ingredient m l hty).symm
  have htc : 0 ≤ totalCost lines m := by
    rw [totalCost_eq_sum]
    apply List.sum_nonneg
    intro x hx
    rcases List.mem_map.mp hx with ⟨l, hl, rfl⟩
    exact hline l hl
  refine ⟨convert_nonneg, htc, ?_⟩
  have hp : (0 : ℚ) < portionsN portions :=
    lt_of_lt_of_le one_pos (le_max_left _ _)
  exact div_nonneg htc hp.le

/-- Witness for C9: 500 g of a 4-per-kg ingredient over 4 portions. -/
theorem totalCost_nonneg_witness :
    0 ≤ totalCost [sampleIngLine] sampleLookup ∧
      0 ≤ cpp (totalCost [sampleIngLine] sampleLookup) (some 4) := by
  have h := totalCost_nonneg [sampleIngLine] sampleLookup (some 4)
    (by intro l hl _
        rw [List.mem_singleton] at hl
        subst hl
        norm_num [sampleIngLine, toNum])
    (by intro l hl iid hid ing hmi
        rw [List.mem_singleton] at hl
        subst hl
        simp only [sampleIngLine, Option.some.injEq] at hid
        subst hid
        simp [sampleLookup] at hmi
        subst hmi
        norm_num [sampleIngredient, toNum])
  exact ⟨h.2.1, h.2.2⟩

end GastroChef
